import Mathlib

/-!
Verification development for `app.py` of the tg-uw-status-bot repository:
a Telegram bot that logs into the Gdańsk voivodeship case portal through a
remote Playwright browser, extracts the "Etap postępowania" status field,
stores encrypted credentials, and runs a repeating alert job per user.

The Python source is shallowly embedded: the pure text processing
(normalisation, whitespace collapsing, the in-page JavaScript extractor)
is translated directly; the Playwright/DB/Telegram effects are modelled by
explicit records describing the outcome of each external operation, and
`fetch_status` / `get_creds` / `upsert_creds` / `check_job` are translated
as functions over those records, following the source's control flow
statement by statement.
-/

set_option autoImplicit false

namespace UwBot

/-- Models JavaScript `String.prototype.trim` and Python `str.strip()`:
remove whitespace characters from both ends.  (Both reference functions
strip Unicode whitespace; the portal texts involved only use ASCII
whitespace, which `Char.isWhitespace` covers.) -/
def trimWs (s : String) : String :=
  String.mk (((s.data.dropWhile Char.isWhitespace).reverse.dropWhile Char.isWhitespace).reverse)

/-- Helper for `collapseWs`: rewrite every maximal run of whitespace
characters to a single space.  The boolean records whether the previous
character was whitespace (i.e. we are inside a run). -/
def collapseAux : List Char → Bool → List Char
  | [], _ => []
  | c :: rest, inRun =>
    if c.isWhitespace then
      if inRun then collapseAux rest true else ' ' :: collapseAux rest true
    else
      c :: collapseAux rest false

/-- Models the regex substitutions `re.sub(r"\s+", " ", s)` (app.py line 308)
and the JavaScript `.replace(/\s+/g, " ")` inside the page script
(line 263): every maximal whitespace run becomes one space. -/
def collapseWs (s : String) : String :=
  String.mk (collapseAux s.data false)

/-- Models JavaScript `t.includes(pat)` / Python `pat in t`:
`pat` occurs as a contiguous substring of `t`. -/
def containsSubstr (t pat : String) : Bool :=
  decide (List.IsInfix pat.data t.data)

/-- Models the character-level effect of `normalize("NFKD")` followed by
stripping combining marks U+0300–U+036F (the page script, app.py
lines 260–262), on the Polish letters that occur in the portal's labels.
`ł`/`Ł` have no NFKD decomposition and are left unchanged, exactly as in
the JavaScript. -/
def deaccentChar (c : Char) : Char :=
  if c = 'ą' then 'a' else if c = 'ć' then 'c' else if c = 'ę' then 'e'
  else if c = 'ń' then 'n' else if c = 'ó' then 'o' else if c = 'ś' then 's'
  else if c = 'ź' then 'z' else if c = 'ż' then 'z'
  else if c = 'Ą' then 'A' else if c = 'Ć' then 'C' else if c = 'Ę' then 'E'
  else if c = 'Ń' then 'N' else if c = 'Ó' then 'O' else if c = 'Ś' then 'S'
  else if c = 'Ź' then 'Z' else if c = 'Ż' then 'Z'
  else c

/-- Models JavaScript `toLowerCase()` on the character repertoire that can
reach it here: ASCII plus `Ł` (which survives NFKD undecomposed). -/
def jsLowerChar (c : Char) : Char :=
  if c = 'Ł' then 'ł' else c.toLower

/-- Models `jsLowerChar` applied to every character of a string
(JavaScript `toLowerCase()`, also used for the case-insensitive `re.I`
regex probes). -/
def jsLower (s : String) : String :=
  String.mk (s.data.map jsLowerChar)

/-- Models `norm` from the in-page script (app.py lines 258–264):
NFKD-normalise, strip combining marks, lower-case, collapse whitespace,
trim. -/
def normText (s : String) : String :=
  trimWs (collapseWs (String.mk (s.data.map (fun c => jsLowerChar (deaccentChar c)))))

/-- The label variants recognised by the status extractor
(app.py line 266). -/
def statusLabels : List String :=
  ["etap postepowania", "status sprawy", "stage of proceedings"]

/-- Models `isLabel` from the in-page script (app.py lines 268–271): the
normalised inner text contains one of the known label variants. -/
def isLabelText (s : String) : Bool :=
  statusLabels.any (fun l => containsSubstr (normText s) l)

/-- Helper modelling a regex fragment `x.*y`: scanning the character list,
an occurrence of `x` is followed (after it) by an occurrence of `y`. -/
def seqMatchAux (x y : List Char) : List Char → Bool
  | [] => x.isEmpty && y.isEmpty
  | t@(_ :: rest) =>
    (x.isPrefixOf t && decide (List.IsInfix y (t.drop x.length))) || seqMatchAux x y rest

/-- Models the login-failure probe regex
`(błędne|nieprawidłow).*hasł|logow|błąd logowania` with `re.I`
(app.py line 248): true iff the text matches one of the three
alternatives, case-insensitively. -/
def loginFailureMatches (t : String) : Bool :=
  let l := jsLower t
  seqMatchAux "błędne".data "hasł".data l.data ||
  seqMatchAux "nieprawidłow".data "hasł".data l.data ||
  containsSubstr l "logow" || containsSubstr l "błąd logowania"

/-! ## DOM model for the in-page status extractor

The script of app.py lines 255–305 inspects (1) all `td`/`th` cells of the
document in document order, which for well-formed tables is the row-major
traversal of the table rows, and (2) a list of other elements together
with their following-sibling chain.  A cell or element is represented by
its `innerText`. -/

/-- One non-table element considered by pass 2 of the extractor:
its `innerText` and the `innerText`s of its following siblings in order
(`nextElementSibling` chain). -/
structure OtherEl where
  text : String
  siblings : List String

/-- The part of the post-login DOM inspected by the status extractor:
table cells grouped by row in document order, and the generic elements
matched by `label,div,span,p,dt,dd,strong,b,em`. -/
structure Dom where
  rows : List (List String)
  others : List OtherEl

/-- Models the inner loop of pass 1 (app.py lines 281–284): scan the cells
after the label cell and return the first whose trimmed text is
non-empty. -/
def firstNonEmpty : List String → Option String
  | [] => none
  | s :: rest =>
    if trimWs s = "" then firstNonEmpty rest else some (trimWs s)

/-- Models pass 1 restricted to one row: walk the cells in order; at each
label cell look for the first non-empty trimmed text among the following
cells of the same row; otherwise keep scanning (app.py lines 274–287,
specialised to the cells of a single row — the global `td,th` traversal
is the row-major concatenation of these scans). -/
def scanRow : List String → Option String
  | [] => none
  | c :: rest =>
    if isLabelText c then
      match firstNonEmpty rest with
      | some v => some v
      | none => scanRow rest
    else scanRow rest

/-- Models pass 1 of the extractor over all table rows in document
order. -/
def pass1 : List (List String) → Option String
  | [] => none
  | row :: rest =>
    match scanRow row with
    | some v => some v
    | none => pass1 rest

/-- Models the sibling loop of pass 2 (app.py lines 293–298): inspect up
to `n` following siblings (the source uses 4) and return the first
non-empty trimmed text. -/
def siblingScan : Nat → List String → Option String
  | _, [] => none
  | 0, _ => none
  | n + 1, s :: rest =>
    if trimWs s = "" then siblingScan n rest else some (trimWs s)

/-- Models pass 2 of the extractor (app.py lines 290–300): for each
generic element whose text is a label, scan up to 4 following
siblings. -/
def pass2 : List OtherEl → Option String
  | [] => none
  | el :: rest =>
    if isLabelText el.text then
      match siblingScan 4 el.siblings with
      | some v => some v
      | none => pass2 rest
    else pass2 rest

/-- Models the full in-page script result (app.py lines 255–305): pass 1
over table cells, then pass 2 over generic elements, else `null`. -/
def extractStatus (d : Dom) : Option String :=
  match pass1 d.rows with
  | some v => some v
  | none => pass2 d.others

/-! ## fetch_status (app.py lines 158–317)

Playwright effects are modelled by records giving the outcome of every
external operation an execution can hit.  Python exceptions are the
`Exn` type; `Exn.timeout` is `playwright.TimeoutError`, everything else
raised in this code is `RuntimeError` with a message. -/

/-- A Python exception reaching `fetch_status`'s handlers: a Playwright
`TimeoutError` or a `RuntimeError`-like exception; each carries its
`str()` message. -/
inductive Exn where
  | timeout (msg : String)
  | runtime (msg : String)

/-- Outcome of a successful `fetch_status`: the parsed status text, or
the tuple `("screenshot", image_bytes)` (app.py lines 308 and 312). -/
inductive FetchOutcome where
  | statusText (s : String)
  | screenshot (img : List Nat)

/-- Models one locator-fallback loop (app.py lines 196–207, 212–223,
228–239): attempt each strategy in order; a strategy either succeeds
(`Except.ok`) or raises a diagnostic that the `except Exception: pass`
swallows.  Returns whether some strategy succeeded (`filled`/`clicked`)
and how many strategies were actually invoked before the loop stopped. -/
def runChain : List (Except String Unit) → Bool × Nat
  | [] => (false, 0)
  | .ok _ :: _ => (true, 1)
  | .error _ :: rest => ((runChain rest).1, (runChain rest).2 + 1)

/-- Environment configuration relevant to `fetch_status`: the
`BROWSERLESS_WS` variable (Python treats both unset and empty string as
falsy at line 162). -/
structure Env where
  browserlessWs : Option String

/-- Outcomes of the remote-browser operations performed before the
guarded `try` block: `connect_over_cdp` (line 168; `some d` is the raised
exception's message `str(e)`) and `context.new_page()` (line 183, which
sits between context creation and the `try`). `new_context` (line 175) is
taken to succeed whenever the connection did — a failure there happens
before any context exists, so it is irrelevant to the claims. -/
structure Remote where
  connectErr : Option String
  newPageErr : Option Exn

/-- Scripted outcomes of the page operations inside the `try` block, in
source order: `goto`, the suppressed cookie click, the three locator
strategy lists, `wait_for_load_state`, the login-failure probe
(`Except.ok t` models `get_by_text(...).inner_text()` finding an element
with inner text `t`; `Except.error` models the probe raising, e.g. its
1.5 s timeout when no element matches), the DOM given to
`page.evaluate`, and the `page.screenshot` bytes. -/
structure Page where
  gotoErr : Option Exn
  cookieErr : Option Exn
  caseStrats : List (Except String Unit)
  passStrats : List (Except String Unit)
  submitStrats : List (Except String Unit)
  waitLoadErr : Option Exn
  probe : Except Exn String
  dom : Dom
  screenshotBytes : List Nat

/-- Result of one `fetch_status` execution: the returned value or raised
exception, whether the browser context was created, whether
`context.close()` ran, and how many strategies each of the three locator
chains invoked. -/
structure FetchResult where
  result : Except Exn FetchOutcome
  contextCreated : Bool
  contextClosed : Bool
  caseInvoked : Nat
  passInvoked : Nat
  submitInvoked : Nat

/-- Models the body of the `with suppress(Exception):` probe block
(app.py lines 246–251): evaluate the probe; if it yields text, the code
raises `RuntimeError("Błąd logowania: …")`.  Whatever this block raises —
including that very `RuntimeError` — is swallowed by the surrounding
`suppress(Exception)`; `fetch_status` below discards this value
accordingly. -/
def loginErrorBlockInner (probe : Except Exn String) : Except Exn Unit :=
  match probe with
  | .error e => .error e
  | .ok t =>
    if t = "" then .ok ()
    else .error (.runtime "Błąd logowania: sprawdź numer sprawy и hasło.")

/-- Models `except PlaywrightTimeout: raise RuntimeError(…)` (app.py
lines 314–315): a Playwright timeout escaping the `try` body is replaced
by the fixed portal-unresponsive message. -/
def mapTimeout : Except Exn FetchOutcome → Except Exn FetchOutcome
  | .error (.timeout _) =>
    .error (.runtime "Портал не отвечает или работает медленно. Попробуйте позже.")
  | r => r

/-- Models the `try` body of `fetch_status` (app.py lines 185–312):
navigation, suppressed cookie click, the three locator chains with their
exhaustion errors, post-submit load wait, the (entirely suppressed)
login-failure probe block, the in-page extraction and the final
text/screenshot choice.  Returns the body's outcome together with the
number of strategies each chain invoked. -/
def runBody (pg : Page) : Except Exn FetchOutcome × (Nat × Nat × Nat) :=
  match pg.gotoErr with
  | some e => (.error e, (0, 0, 0))
  | none =>
    let _cookie := pg.cookieErr
    let caseR := runChain pg.caseStrats
    if caseR.1 then
      let passR := runChain pg.passStrats
      if passR.1 then
        let subR := runChain pg.submitStrats
        if subR.1 then
          match pg.waitLoadErr with
          | some e => (.error e, (caseR.2, passR.2, subR.2))
          | none =>
            let _probe := loginErrorBlockInner pg.probe
            match extractStatus pg.dom with
            | some s =>
              if s = "" then (.ok (.screenshot pg.screenshotBytes), (caseR.2, passR.2, subR.2))
              else (.ok (.statusText (trimWs (collapseWs s))), (caseR.2, passR.2, subR.2))
            | none => (.ok (.screenshot pg.screenshotBytes), (caseR.2, passR.2, subR.2))
        else (.error (.runtime "Не удалось нажать 'Zaloguj'."), (caseR.2, passR.2, subR.2))
      else (.error (.runtime "Не нашёл поле 'Hasło'."), (caseR.2, passR.2, 0))
    else (.error (.runtime "Не нашёл поле 'Numer sprawy'."), (caseR.2, 0, 0))

/-- Models `fetch_status` (app.py lines 158–317).  The `BROWSERLESS_WS`
falsy check and the connection failure precede context creation; a
`new_page` failure happens after the context exists but before the
`try`/`finally`, so it escapes without `context.close()`; the `try` body
runs under `except PlaywrightTimeout` conversion and a `finally` that
closes the context.  `case_no` and `password` flow only into the fill
strategies, whose outcomes `pg` already scripts. -/
def fetch_status (env : Env) (rem : Remote) (pg : Page) (case_no password : String) :
    FetchResult :=
  if env.browserlessWs.getD "" = "" then
    ⟨.error (.runtime "BROWSERLESS_WS не задан."), false, false, 0, 0, 0⟩
  else
    match rem.connectErr with
    | some d =>
      ⟨.error (.runtime ("Не удаётся подключиться к удалённому браузеру (Browserless). " ++
        "Проверь BROWSERLESS_WS и лимиты плана. Детали: " ++ d)), false, false, 0, 0, 0⟩
    | none =>
      match rem.newPageErr with
      | some e => ⟨.error e, true, false, 0, 0, 0⟩
      | none =>
        let body := runBody pg
        ⟨mapTimeout body.1, true, true, body.2.1, body.2.2.1, body.2.2.2⟩

/-! ## Credential vault (app.py lines 62–154)

The Fernet primitive is external; it is modelled as an ideal symmetric
cipher: a ciphertext either is a token produced under some key and
decrypts exactly under that key, or is garbage bytes, and any mismatch
raises `InvalidToken`. -/

/-- A bytea value as seen by `dec`: either a Fernet token produced under
some key, or bytes that are not a valid token (corrupted ciphertext). -/
inductive Cipher where
  | token (key : Nat) (plain : String)
  | garbage (bytes : List Nat)

/-- Exceptions of the vault layer: `RuntimeError` (carrying its message)
or `cryptography.fernet.InvalidToken`. -/
inductive PyError where
  | runtimeError (msg : String)
  | invalidToken

/-- Models `Fernet(key).encrypt`: always produces a fresh valid token
under the process key. -/
def fernetEncrypt (key : Nat) (s : String) : Cipher :=
  .token key s

/-- Models `Fernet(key).decrypt`: succeeds exactly on a token produced
under the same key, otherwise raises `InvalidToken`. -/
def fernetDecrypt (key : Nat) : Cipher → Except PyError String
  | .token k s => if k = key then .ok s else .error .invalidToken
  | .garbage _ => .error .invalidToken

/-- Models `enc` (app.py lines 69–70). -/
def enc (key : Nat) (text : String) : Cipher :=
  fernetEncrypt key text

/-- Models `dec` (app.py lines 73–83): a `None` blob raises
`RuntimeError`; the memoryview/bytearray/str branches all coerce to the
same bytes, so a present blob is decrypted directly. -/
def dec (key : Nat) : Option Cipher → Except PyError String
  | none => .error (.runtimeError "В базе нет сохранённых данных.")
  | some blob => fernetDecrypt key blob

/-- Models the `Creds` dataclass (app.py lines 110–114). -/
structure Creds where
  case_no : String
  password : String
  alerts : Bool

/-- One row of the `users` table (app.py lines 97–104).  The bytea
columns are `not null` in the schema but the column read is modelled with
`Option` so that `dec`'s `None` branch stays visible. -/
structure UserRow where
  case_enc : Option Cipher
  pass_enc : Option Cipher
  alerts : Bool
  created_at : Nat
  updated_at : Nat

/-- Models `get_creds` (app.py lines 117–126): no row gives `None`; with
a row, both blobs are decrypted and only `InvalidToken` is caught and
turned into `None` — any other exception propagates. -/
def get_creds (key : Nat) (dbs : Nat → Option UserRow) (telegram_id : Nat) :
    Except PyError (Option Creds) :=
  match dbs telegram_id with
  | none => .ok none
  | some row =>
    match dec key row.case_enc with
    | .error .invalidToken => .ok none
    | .error e => .error e
    | .ok c =>
      match dec key row.pass_enc with
      | .error .invalidToken => .ok none
      | .error e => .error e
      | .ok p => .ok (some ⟨c, p, row.alerts⟩)

/-- Models `upsert_creds` (app.py lines 129–142): insert a fresh row with
the schema defaults (`alerts=false`, both timestamps `now()`), or on
conflict overwrite only `case_enc`, `pass_enc`, `updated_at` with fresh
encryptions and the current time. -/
def upsert_creds (key now : Nat) (dbs : Nat → Option UserRow) (telegram_id : Nat)
    (case_no password : String) : Nat → Option UserRow :=
  fun t =>
    if t = telegram_id then
      match dbs telegram_id with
      | some row =>
        some { row with
          case_enc := some (enc key case_no),
          pass_enc := some (enc key password),
          updated_at := now }
      | none => some ⟨some (enc key case_no), some (enc key password), false, now, now⟩
    else dbs t

/-! ## Alert job registry (app.py lines 412–429) -/

/-- A job in the `python-telegram-bot` job queue, as far as the source
uses it: its name and its `data` payload (the user id). -/
structure Job where
  name : String
  data : Nat

/-- The per-user job name `f"alert_{uid}"` (app.py lines 413, 416,
428). -/
def jobName (uid : Nat) : String :=
  "alert_" ++ toString uid

/-- Models the disable branch of `alerts_toggle` and the `unlink` branch
(app.py lines 416–417 and 428–429): every job returned by
`get_jobs_by_name(f"alert_{uid}")` gets `schedule_removal()`, i.e. all
jobs with that name leave the registry. -/
def disableAlerts (uid : Nat) (jobs : List Job) : List Job :=
  jobs.filter (fun j => j.name != jobName uid)

/-- Number of jobs in the registry named for `uid`. -/
def countJobsNamed (uid : Nat) (jobs : List Job) : Nat :=
  (jobs.filter (fun j => j.name == jobName uid)).length

/-! ## Scheduled tick (app.py lines 472–493) -/

/-- Models `safe_markdown` (app.py lines 49–50). -/
def safe_markdown (text : String) : String :=
  ((text.replace "_" "\\_").replace "*" "\\*").replace "`" "\\`"

/-- The `str()` rendering of an exception, used by the f-string in the
tick's error message. -/
def exnText : Exn → String
  | .timeout m => m
  | .runtime m => m

/-- A message the tick sends to the user's chat. -/
inductive SentMsg where
  | message (chat_id : Nat) (text : String)
  | photo (chat_id : Nat) (img : List Nat)

/-- Observable effect of one tick: the messages sent, and whether the
extraction pipeline (`fetch_status`) was invoked at all. -/
structure TickResult where
  sent : List SentMsg
  fetched : Bool

/-- Models `check_job` (app.py lines 472–493): reload credentials
(outside the `try`, so a vault exception would propagate); return
silently when the record is absent/undecryptable or alerts are off;
otherwise run `fetch_status` and deliver text, screenshot, or — for any
exception the pipeline raises — an error message, inside the tick's
`try/except Exception`.  Message delivery itself is the out-of-scope
transport layer and is modelled as succeeding. -/
def check_job (key : Nat) (dbs : Nat → Option UserRow) (env : Env) (rem : Remote)
    (pg : Page) (uid : Nat) : Except PyError TickResult :=
  match get_creds key dbs uid with
  | .error e => .error e
  | .ok none => .ok ⟨[], false⟩
  | .ok (some creds) =>
    if creds.alerts then
      match (fetch_status env rem pg creds.case_no creds.password).result with
      | .ok (.screenshot img) =>
        .ok ⟨[.message uid "🔔 Не нашёл текст статуса — отправляю скриншот.",
              .photo uid img], true⟩
      | .ok (.statusText s) =>
        .ok ⟨[.message uid ("🔔 Обновление статуса:\n📌 *" ++ safe_markdown s ++ "*")], true⟩
      | .error e =>
        .ok ⟨[.message uid ("⚠️ Не удалось проверить статус: " ++ exnText e)], true⟩
    else .ok ⟨[], false⟩

/-! ## Predicates used by the claim statements -/

/-- Strategy `i` is the first of the list to succeed: it succeeds and
every earlier strategy raises some diagnostic. -/
def IsFirstSuccess (strats : List (Except String Unit)) (i : Nat) : Prop :=
  strats.get? i = some (.ok ()) ∧ ∀ j, j < i → ∃ d, strats.get? j = some (.error d)

/-- The execution reaches the status-extraction step: configuration and
connection are fine, the page is created, navigation and the post-submit
load wait succeed, and each of the three locator chains finds its
element. -/
def ReachesExtraction (env : Env) (rem : Remote) (pg : Page) : Prop :=
  env.browserlessWs.getD "" ≠ "" ∧ rem.connectErr = none ∧ rem.newPageErr = none ∧
  pg.gotoErr = none ∧ (runChain pg.caseStrats).1 = true ∧
  (runChain pg.passStrats).1 = true ∧ (runChain pg.submitStrats).1 = true ∧
  pg.waitLoadErr = none

/-- The row contains a label cell followed (later in the same row) by a
cell with non-empty trimmed text. -/
def RowHasHit (row : List String) : Prop :=
  ∃ i j, i < j ∧ j < row.length ∧ isLabelText (row.getD i "") = true ∧
    trimWs (row.getD j "") ≠ ""

/-- No element of the DOM matches any known status label. -/
def NoLabelMatch (d : Dom) : Prop :=
  (∀ row ∈ d.rows, ∀ c ∈ row, isLabelText c = false) ∧
  (∀ el ∈ d.others, isLabelText el.text = false)

/-! ## Helper lemmas: locator chains -/

theorem runChain_allFail (strats : List (Except String Unit))
    (h : ∀ s ∈ strats, ∃ d, s = Except.error d) : (runChain strats).1 = false := by
  induction strats with
  | nil => rfl
  | cons s rest ih =>
    obtain ⟨d, hd⟩ := h s (List.mem_cons_self s rest)
    subst hd
    simpa [runChain] using ih (fun x hx => h x (List.mem_cons_of_mem _ hx))

theorem runChain_firstSuccess (strats : List (Except String Unit)) (i : Nat)
    (h : IsFirstSuccess strats i) : runChain strats = (true, i + 1) := by
  induction strats generalizing i with
  | nil => obtain ⟨h0, _⟩ := h; simp [List.get?] at h0
  | cons s rest ih =>
    obtain ⟨h0, hprev⟩ := h
    cases i with
    | zero =>
      have hs : s = Except.ok () := by simpa [List.get?] using h0
      subst hs; rfl
    | succ n =>
      obtain ⟨d, hd⟩ := hprev 0 (Nat.succ_pos n)
      have hs : s = Except.error d := by simpa [List.get?] using hd
      subst hs
      have ihr := ih n ⟨by simpa [List.get?] using h0,
        fun j hj => by simpa [List.get?] using hprev (j + 1) (Nat.succ_lt_succ hj)⟩
      simp [runChain, ihr]

/-! ## Helper lemmas: unfolding fetch_status -/

theorem fetch_status_open (env : Env) (rem : Remote) (pg : Page) (cn pw : String)
    (hbw : env.browserlessWs.getD "" ≠ "") (hconn : rem.connectErr = none)
    (hnp : rem.newPageErr = none) :
    fetch_status env rem pg cn pw =
      ⟨mapTimeout (runBody pg).1, true, true,
        (runBody pg).2.1, (runBody pg).2.2.1, (runBody pg).2.2.2⟩ := by
  unfold fetch_status
  rw [if_neg hbw, hconn, hnp]

theorem runBody_counts (pg : Page) (hgoto : pg.gotoErr = none)
    (hc : (runChain pg.caseStrats).1 = true) (hp : (runChain pg.passStrats).1 = true)
    (hs : (runChain pg.submitStrats).1 = true) :
    (runBody pg).2 = ((runChain pg.caseStrats).2, (runChain pg.passStrats).2,
      (runChain pg.submitStrats).2) := by
  unfold runBody
  rw [hgoto]
  simp only [hc, hp, hs, if_true]
  cases pg.waitLoadErr with
  | some e => rfl
  | none =>
    cases extractStatus pg.dom with
    | some s => by_cases h0 : s = "" <;> simp [h0]
    | none => rfl

theorem runBody_auth (pg : Page) (hgoto : pg.gotoErr = none)
    (hc : (runChain pg.caseStrats).1 = true) (hp : (runChain pg.passStrats).1 = true)
    (hs : (runChain pg.submitStrats).1 = true) (hw : pg.waitLoadErr = none) :
    (runBody pg).1 =
      (match extractStatus pg.dom with
       | some s =>
         if s = "" then Except.ok (FetchOutcome.screenshot pg.screenshotBytes)
         else Except.ok (FetchOutcome.statusText (trimWs (collapseWs s)))
       | none => Except.ok (FetchOutcome.screenshot pg.screenshotBytes)) := by
  unfold runBody
  rw [hgoto]
  simp only [hc, hp, hs, if_true, hw]
  cases extractStatus pg.dom with
  | some s => by_cases h0 : s = "" <;> simp [h0]
  | none => rfl

theorem fetch_status_auth (env : Env) (rem : Remote) (pg : Page) (cn pw : String)
    (h : ReachesExtraction env rem pg) :
    (fetch_status env rem pg cn pw).result =
      (match extractStatus pg.dom with
       | some s =>
         if s = "" then Except.ok (FetchOutcome.screenshot pg.screenshotBytes)
         else Except.ok (FetchOutcome.statusText (trimWs (collapseWs s)))
       | none => Except.ok (FetchOutcome.screenshot pg.screenshotBytes)) ∧
    (fetch_status env rem pg cn pw).contextCreated = true ∧
    (fetch_status env rem pg cn pw).contextClosed = true := by
  obtain ⟨hbw, hconn, hnp, hgoto, hc, hp, hs, hw⟩ := h
  rw [fetch_status_open env rem pg cn pw hbw hconn hnp]
  refine ⟨?_, rfl, rfl⟩
  show mapTimeout (runBody pg).1 = _
  rw [runBody_auth pg hgoto hc hp hs hw]
  cases hE : extractStatus pg.dom with
  | some s => by_cases h0 : s = "" <;> simp [h0, mapTimeout]
  | none => rfl

/-! ## Helper lemmas: status extraction -/

theorem trimWs_empty : trimWs "" = "" := rfl

theorem isLabelText_empty : isLabelText "" = false := by decide

theorem firstNonEmpty_none_idx (l : List String) (h : firstNonEmpty l = none) (k : Nat) :
    trimWs (l.getD k "") = "" := by
  induction l generalizing k with
  | nil => rfl
  | cons s rest ih =>
    by_cases h0 : trimWs s = ""
    · cases k with
      | zero => simpa using h0
      | succ n => exact ih (by simpa [firstNonEmpty, h0] using h) n
    · simp [firstNonEmpty, h0] at h

theorem firstNonEmpty_some_idx (l : List String) (v : String)
    (h : firstNonEmpty l = some v) :
    ∃ k, k < l.length ∧ v = trimWs (l.getD k "") ∧ v ≠ "" := by
  induction l with
  | nil => simp [firstNonEmpty] at h
  | cons s rest ih =>
    by_cases h0 : trimWs s = ""
    · obtain ⟨k, hk, hv, hne⟩ := ih (by simpa [firstNonEmpty, h0] using h)
      exact ⟨k + 1, by simpa using Nat.succ_lt_succ hk, by simpa using hv, hne⟩
    · have hv : v = trimWs s := by
        have := h
        simp [firstNonEmpty, h0] at this
        exact this.symm
      exact ⟨0, Nat.succ_pos _, by simpa using hv, fun hE => h0 (hv ▸ hE)⟩

theorem scanRow_none_idx (row : List String) (h : scanRow row = none) :
    ∀ i j, i < j → isLabelText (row.getD i "") = true → trimWs (row.getD j "") = "" := by
  induction row with
  | nil =>
    intro i j _ hlab
    rw [List.getD] at hlab
    simp [isLabelText_empty] at hlab
  | cons c rest ih =>
    intro i j hij hlab
    by_cases hc : isLabelText c = true
    · have hfe : firstNonEmpty rest = none := by
        cases hF : firstNonEmpty rest with
        | some v => simp [scanRow, hc, hF] at h
        | none => rfl
      have hrest : scanRow rest = none := by simpa [scanRow, hc, hfe] using h
      cases j with
      | zero => omega
      | succ j' =>
        cases i with
        | zero => simpa using firstNonEmpty_none_idx rest hfe j'
        | succ i' => exact ih hrest i' j' (Nat.lt_of_succ_lt_succ hij) (by simpa using hlab)
    · have hrest : scanRow rest = none := by simpa [scanRow, hc] using h
      cases i with
      | zero => simp at hlab; exact absurd hlab hc
      | succ i' =>
        cases j with
        | zero => omega
        | succ j' => exact ih hrest i' j' (Nat.lt_of_succ_lt_succ hij) (by simpa using hlab)

theorem scanRow_some_of_hit (row : List String) (h : RowHasHit row) :
    ∃ v, scanRow row = some v := by
  cases hS : scanRow row with
  | some v => exact ⟨v, rfl⟩
  | none =>
    obtain ⟨i, j, hij, _, hlab, hne⟩ := h
    exact absurd (scanRow_none_idx row hS i j hij hlab) hne

theorem scanRow_some_idx (row : List String) (v : String) (h : scanRow row = some v) :
    ∃ i j, i < j ∧ j < row.length ∧ isLabelText (row.getD i "") = true ∧
      v = trimWs (row.getD j "") ∧ v ≠ "" := by
  induction row with
  | nil => simp [scanRow] at h
  | cons c rest ih =>
    by_cases hc : isLabelText c = true
    · cases hF : firstNonEmpty rest with
      | some w =>
        have hv : v = w := by
          have := h
          simp [scanRow, hc, hF] at this
          exact this.symm
        obtain ⟨k, hk, hw, hne⟩ := firstNonEmpty_some_idx rest w hF
        subst hv
        exact ⟨0, k + 1, Nat.succ_pos k, by simpa using Nat.succ_lt_succ hk,
          by simpa using hc, by simpa using hw, hne⟩
      | none =>
        have hrest : scanRow rest = some v := by simpa [scanRow, hc, hF] using h
        obtain ⟨i, j, hij, hjlen, hlab, hv, hne⟩ := ih hrest
        exact ⟨i + 1, j + 1, Nat.succ_lt_succ hij, by simpa using Nat.succ_lt_succ hjlen,
          by simpa using hlab, by simpa using hv, hne⟩
    · have hrest : scanRow rest = some v := by simpa [scanRow, hc] using h
      obtain ⟨i, j, hij, hjlen, hlab, hv, hne⟩ := ih hrest
      exact ⟨i + 1, j + 1, Nat.succ_lt_succ hij, by simpa using Nat.succ_lt_succ hjlen,
        by simpa using hlab, by simpa using hv, hne⟩

theorem pass1_some_of_hit (rows : List (List String))
    (h : ∃ row ∈ rows, RowHasHit row) :
    ∃ v row, row ∈ rows ∧ scanRow row = some v ∧ pass1 rows = some v := by
  induction rows with
  | nil => obtain ⟨row, hmem, _⟩ := h; simp at hmem
  | cons r rest ih =>
    cases hS : scanRow r with
    | some v => exact ⟨v, r, List.mem_cons_self r rest, hS, by simp [pass1, hS]⟩
    | none =>
      obtain ⟨row, hmem, hhit⟩ := h
      rcases List.mem_cons.mp hmem with rfl | hmem'
      · obtain ⟨v, hv⟩ := scanRow_some_of_hit row hhit
        rw [hS] at hv
        exact absurd hv (by simp)
      · obtain ⟨v, row', hmem2, hS2, hp⟩ := ih ⟨row, hmem', hhit⟩
        exact ⟨v, row', List.mem_cons_of_mem _ hmem2, hS2, by simp [pass1, hS, hp]⟩

theorem scanRow_none_of_noLabel (row : List String)
    (h : ∀ c ∈ row, isLabelText c = false) : scanRow row = none := by
  induction row with
  | nil => rfl
  | cons c rest ih =>
    have h0 := h c (List.mem_cons_self c rest)
    simp only [scanRow, h0]
    simp only [Bool.false_eq_true, if_false]
    exact ih fun x hx => h x (List.mem_cons_of_mem _ hx)

theorem pass1_none_of_noLabel (rows : List (List String))
    (h : ∀ row ∈ rows, ∀ c ∈ row, isLabelText c = false) : pass1 rows = none := by
  induction rows with
  | nil => rfl
  | cons r rest ih =>
    have h0 := scanRow_none_of_noLabel r (h r (List.mem_cons_self r rest))
    simp only [pass1, h0]
    exact ih fun x hx => h x (List.mem_cons_of_mem _ hx)

theorem pass2_none_of_noLabel (els : List OtherEl)
    (h : ∀ el ∈ els, isLabelText el.text = false) : pass2 els = none := by
  induction els with
  | nil => rfl
  | cons el rest ih =>
    have h0 := h el (List.mem_cons_self el rest)
    simp only [pass2, h0]
    simp only [Bool.false_eq_true, if_false]
    exact ih fun x hx => h x (List.mem_cons_of_mem _ hx)

theorem extractStatus_none_of_noLabel (d : Dom) (h : NoLabelMatch d) :
    extractStatus d = none := by
  obtain ⟨h1, h2⟩ := h
  simp [extractStatus, pass1_none_of_noLabel d.rows h1, pass2_none_of_noLabel d.others h2]

/-! ## Helper lemmas: vault and jobs -/

theorem fernetDecrypt_error_invalidToken (key : Nat) (c : Cipher) (e : PyError)
    (h : fernetDecrypt key c = .error e) : e = .invalidToken := by
  cases c with
  | token k s =>
    by_cases hk : k = key
    · simp [fernetDecrypt, hk] at h
    · simp [fernetDecrypt, hk] at h
      exact h.symm
  | garbage b =>
    simp [fernetDecrypt] at h
    exact h.symm

theorem get_creds_total (key : Nat) (dbs : Nat → Option UserRow) (uid : Nat)
    (hdb : ∀ row, dbs uid = some row → row.case_enc.isSome ∧ row.pass_enc.isSome) :
    ∃ r, get_creds key dbs uid = .ok r := by
  cases hrow : dbs uid with
  | none => exact ⟨none, by simp [get_creds, hrow]⟩
  | some row =>
    obtain ⟨h1, h2⟩ := hdb row hrow
    obtain ⟨c1, hc1⟩ := Option.isSome_iff_exists.mp h1
    obtain ⟨c2, hc2⟩ := Option.isSome_iff_exists.mp h2
    cases hd1 : fernetDecrypt key c1 with
    | error e =>
      rw [fernetDecrypt_error_invalidToken key c1 e hd1] at hd1
      exact ⟨none, by simp [get_creds, hrow, hc1, dec, hd1]⟩
    | ok s1 =>
      cases hd2 : fernetDecrypt key c2 with
      | error e =>
        rw [fernetDecrypt_error_invalidToken key c2 e hd2] at hd2
        exact ⟨none, by simp [get_creds, hrow, hc1, hc2, dec, hd1, hd2]⟩
      | ok s2 =>
        exact ⟨some ⟨s1, s2, row.alerts⟩, by simp [get_creds, hrow, hc1, hc2, dec, hd1, hd2]⟩

theorem filter_named_of_removed (n : String) (jobs : List Job) :
    (jobs.filter (fun j => j.name != n)).filter (fun j => j.name == n) = [] := by
  induction jobs with
  | nil => rfl
  | cons j rest ih =>
    by_cases h : j.name = n
    · simp [List.filter_cons, h, ih]
    · simp [List.filter_cons, h, ih]

/-! ## Claim theorems -/

/-- C1: evaluation of the login sequence at a post-submit DOM whose text
matches the login-failure pattern ("nieprawidłowe hasło").  The probe
block does construct and raise the login-failure `RuntimeError`, but that
raise sits inside `with suppress(Exception)` (app.py lines 246–251), so
it is swallowed and `fetch_status` proceeds to status extraction and
returns a normal outcome instead of surfacing an authentication-rejected
error.  This contradicts the claim (and the spec's stated intent of
swallowing only probe errors). -/
theorem c1_login_failure_swallowed :
    loginFailureMatches "nieprawidłowe hasło" = true ∧
    loginErrorBlockInner (Except.ok "nieprawidłowe hasło") =
      .error (.runtime "Błąd logowania: sprawdź numer sprawy и hasło.") ∧
    (fetch_status ⟨some "ws"⟩ ⟨none, none⟩
      ⟨none, none, [.ok ()], [.ok ()], [.ok ()], none, .ok "nieprawidłowe hasło",
        ⟨[], []⟩, [7, 7]⟩ "123/2024" "secret").result =
      .ok (.screenshot [7, 7]) :=
  ⟨by decide, rfl, rfl⟩

/-- C2 counterexample: a case-number chain whose two strategies fail with
diagnostics "diagA" and "diagB" raises the fixed message
"Не нашёл поле 'Numer sprawy'.", which does not contain the last
diagnostic — the claim's "retains the last underlying strategy's
diagnostic" is false. -/
theorem c2_counterexample :
    (fetch_status ⟨some "ws"⟩ ⟨none, none⟩
      ⟨none, none, [.error "diagA", .error "diagB"], [], [], none,
        .error (.timeout "t"), ⟨[], []⟩, [1]⟩ "123/2024" "secret").result =
      .error (.runtime "Не нашёл поле 'Numer sprawy'.") ∧
    containsSubstr "Не нашёл поле 'Numer sprawy'." "diagB" = false :=
  ⟨rfl, by decide⟩

/-- C2 (amended): for every ordered locator-strategy list in which every
strategy fails, each of the three chains raises an error whose fixed
message names the action attempted ("Numer sprawy", "Hasło", "Zaloguj");
the underlying strategies' diagnostics are all discarded by the
`except Exception: pass` handlers and none is retained in the message. -/
theorem c2_exhaustion_names_action (env : Env) (rem : Remote) (pg : Page) (cn pw : String)
    (hbw : env.browserlessWs.getD "" ≠ "") (hconn : rem.connectErr = none)
    (hnp : rem.newPageErr = none) (hgoto : pg.gotoErr = none) :
    ((∀ s ∈ pg.caseStrats, ∃ d, s = Except.error d) →
      (fetch_status env rem pg cn pw).result =
        .error (.runtime "Не нашёл поле 'Numer sprawy'.") ∧
      containsSubstr "Не нашёл поле 'Numer sprawy'." "Numer sprawy" = true) ∧
    ((runChain pg.caseStrats).1 = true →
      (∀ s ∈ pg.passStrats, ∃ d, s = Except.error d) →
      (fetch_status env rem pg cn pw).result =
        .error (.runtime "Не нашёл поле 'Hasło'.") ∧
      containsSubstr "Не нашёл поле 'Hasło'." "Hasło" = true) ∧
    ((runChain pg.caseStrats).1 = true → (runChain pg.passStrats).1 = true →
      (∀ s ∈ pg.submitStrats, ∃ d, s = Except.error d) →
      (fetch_status env rem pg cn pw).result =
        .error (.runtime "Не удалось нажать 'Zaloguj'.") ∧
      containsSubstr "Не удалось нажать 'Zaloguj'." "Zaloguj" = true) := by
  rw [fetch_status_open env rem pg cn pw hbw hconn hnp]
  refine ⟨fun hall => ⟨?_, by decide⟩, fun hc hall => ⟨?_, by decide⟩,
    fun hc hp hall => ⟨?_, by decide⟩⟩
  · have hcf := runChain_allFail _ hall
    show mapTimeout (runBody pg).1 = _
    unfold runBody
    rw [hgoto]
    simp [hcf, mapTimeout]
  · have hpf := runChain_allFail _ hall
    show mapTimeout (runBody pg).1 = _
    unfold runBody
    rw [hgoto]
    simp [hc, hpf, mapTimeout]
  · have hsf := runChain_allFail _ hall
    show mapTimeout (runBody pg).1 = _
    unfold runBody
    rw [hgoto]
    simp [hc, hp, hsf, mapTimeout]

/-- C2 witness: a concrete all-failing case-number chain, with the
amended theorem applied to it. -/
theorem c2_exhaustion_names_action_witness :
    (∀ s ∈ ([Except.error "diagA", Except.error "diagB"] : List (Except String Unit)),
      ∃ d, s = Except.error d) ∧
    (fetch_status ⟨some "ws"⟩ ⟨none, none⟩
      ⟨none, none, [.error "diagA", .error "diagB"], [], [], none,
        .error (.timeout "t"), ⟨[], []⟩, [1]⟩ "123/2024" "secret").result =
      .error (.runtime "Не нашёл поле 'Numer sprawy'.") := by
  have hall : ∀ s ∈ ([Except.error "diagA", Except.error "diagB"] : List (Except String Unit)),
      ∃ d, s = Except.error d := by
    intro s hs
    rcases List.mem_cons.mp hs with rfl | hs'
    · exact ⟨"diagA", rfl⟩
    · rcases List.mem_cons.mp hs' with rfl | hs''
      · exact ⟨"diagB", rfl⟩
      · simp at hs''
  refine ⟨hall, ?_⟩
  exact ((c2_exhaustion_names_action ⟨some "ws"⟩ ⟨none, none⟩
    ⟨none, none, [.error "diagA", .error "diagB"], [], [], none,
      .error (.timeout "t"), ⟨[], []⟩, [1]⟩ "123/2024" "secret"
    (by decide) rfl rfl rfl).1 hall).1

/-- C3: for every non-empty ordered strategy list whose first success is
at index `i` (all earlier strategies fail), the chain reports success and
invokes exactly the strategies up to and including index `i` — none
after it; this holds for each of the three chains of `fetch_status`
(case-number fill at index `i`, password fill at `j`, submit click at
`k`). -/
theorem c3_short_circuit (env : Env) (rem : Remote) (pg : Page) (cn pw : String)
    (i j k : Nat)
    (hbw : env.browserlessWs.getD "" ≠ "") (hconn : rem.connectErr = none)
    (hnp : rem.newPageErr = none) (hgoto : pg.gotoErr = none)
    (hc : IsFirstSuccess pg.caseStrats i) (hp : IsFirstSuccess pg.passStrats j)
    (hs : IsFirstSuccess pg.submitStrats k) :
    runChain pg.caseStrats = (true, i + 1) ∧
    runChain pg.passStrats = (true, j + 1) ∧
    runChain pg.submitStrats = (true, k + 1) ∧
    (fetch_status env rem pg cn pw).caseInvoked = i + 1 ∧
    (fetch_status env rem pg cn pw).passInvoked = j + 1 ∧
    (fetch_status env rem pg cn pw).submitInvoked = k + 1 := by
  have hC := runChain_firstSuccess _ i hc
  have hP := runChain_firstSuccess _ j hp
  have hS := runChain_firstSuccess _ k hs
  have hcounts := runBody_counts pg hgoto (by rw [hC]) (by rw [hP]) (by rw [hS])
  rw [fetch_status_open env rem pg cn pw hbw hconn hnp]
  refine ⟨hC, hP, hS, ?_, ?_, ?_⟩ <;>
    simp [hcounts, hC, hP, hS]

/-- C3 witness: concrete chains whose first successes are at indices 1,
0 and 2, with the short-circuit theorem applied to them. -/
theorem c3_short_circuit_witness :
    IsFirstSuccess [Except.error "d0", Except.ok ()] 1 ∧
    IsFirstSuccess [Except.ok (), Except.error "never tried"] 0 ∧
    IsFirstSuccess [Except.error "x", Except.error "y", Except.ok ()] 2 ∧
    (fetch_status ⟨some "ws"⟩ ⟨none, none⟩
      ⟨none, none, [.error "d0", .ok ()], [.ok (), .error "never tried"],
        [.error "x", .error "y", .ok ()], none, .error (.timeout "t"),
        ⟨[], []⟩, [1]⟩ "123/2024" "secret").caseInvoked = 2 ∧
    (fetch_status ⟨some "ws"⟩ ⟨none, none⟩
      ⟨none, none, [.error "d0", .ok ()], [.ok (), .error "never tried"],
        [.error "x", .error "y", .ok ()], none, .error (.timeout "t"),
        ⟨[], []⟩, [1]⟩ "123/2024" "secret").passInvoked = 1 ∧
    (fetch_status ⟨some "ws"⟩ ⟨none, none⟩
      ⟨none, none, [.error "d0", .ok ()], [.ok (), .error "never tried"],
        [.error "x", .error "y", .ok ()], none, .error (.timeout "t"),
        ⟨[], []⟩, [1]⟩ "123/2024" "secret").submitInvoked = 3 := by
  have h1 : IsFirstSuccess [Except.error "d0", Except.ok ()] 1 := by
    refine ⟨rfl, fun j hj => ?_⟩
    cases j with
    | zero => exact ⟨"d0", rfl⟩
    | succ n => omega
  have h2 : IsFirstSuccess [Except.ok (), Except.error "never tried"] 0 :=
    ⟨rfl, fun j hj => by omega⟩
  have h3 : IsFirstSuccess [Except.error "x", Except.error "y", Except.ok ()] 2 := by
    refine ⟨rfl, fun j hj => ?_⟩
    cases j with
    | zero => exact ⟨"x", rfl⟩
    | succ n =>
      cases n with
      | zero => exact ⟨"y", rfl⟩
      | succ m => omega
  have hmain := c3_short_circuit ⟨some "ws"⟩ ⟨none, none⟩
    ⟨none, none, [.error "d0", .ok ()], [.ok (), .error "never tried"],
      [.error "x", .error "y", .ok ()], none, .error (.timeout "t"),
      ⟨[], []⟩, [1]⟩ "123/2024" "secret" 1 0 2 (by decide) rfl rfl rfl h1 h2 h3
  exact ⟨h1, h2, h3, hmain.2.2.2.1, hmain.2.2.2.2.1, hmain.2.2.2.2.2⟩

/-- C5 counterexample: an execution where the remote connection succeeds
(the context is created) but `context.new_page()` — which the source
runs between context creation and the `try`/`finally` — raises: the
exception escapes and `context.close()` never runs, so "closed on every
exit path after the context has been created" is false. -/
theorem c5_counterexample :
    (fetch_status ⟨some "ws"⟩ ⟨none, some (.runtime "Target page, context or browser has been closed")⟩
      ⟨none, none, [.ok ()], [.ok ()], [.ok ()], none, .error (.timeout "t"),
        ⟨[], []⟩, [1]⟩ "123/2024" "secret").contextCreated = true ∧
    (fetch_status ⟨some "ws"⟩ ⟨none, some (.runtime "Target page, context or browser has been closed")⟩
      ⟨none, none, [.ok ()], [.ok ()], [.ok ()], none, .error (.timeout "t"),
        ⟨[], []⟩, [1]⟩ "123/2024" "secret").contextClosed = false :=
  ⟨rfl, rfl⟩

/-- C5 (amended): once the page has been created (`new_page` did not
raise), the context is closed on every exit path of the attempt — normal
text return, screenshot fallback, any raised error and timeout alike; if
`new_page` itself fails, however, the error escapes between context
creation and the `try`/`finally` and the context is not closed. -/
theorem c5_context_closed (env : Env) (rem : Remote) (pg : Page) (cn pw : String)
    (hnp : rem.newPageErr = none)
    (hcreated : (fetch_status env rem pg cn pw).contextCreated = true) :
    (fetch_status env rem pg cn pw).contextClosed = true := by
  by_cases hbw : env.browserlessWs.getD "" = ""
  · rw [show fetch_status env rem pg cn pw =
      ⟨.error (.runtime "BROWSERLESS_WS не задан."), false, false, 0, 0, 0⟩ by
        unfold fetch_status; rw [if_pos hbw]] at hcreated
    cases hcreated
  · cases hconn : rem.connectErr with
    | some d =>
      rw [show fetch_status env rem pg cn pw =
        ⟨.error (.runtime ("Не удаётся подключиться к удалённому браузеру (Browserless). " ++
          "Проверь BROWSERLESS_WS и лимиты плана. Детали: " ++ d)), false, false, 0, 0, 0⟩ by
          unfold fetch_status; rw [if_neg hbw, hconn]] at hcreated
      cases hcreated
    | none => rw [fetch_status_open env rem pg cn pw hbw hconn hnp]

/-- C5 witness: a concrete execution (page creation succeeds, the portal
then times out) at which the amended theorem yields a closed context. -/
theorem c5_context_closed_witness :
    (⟨none, none⟩ : Remote).newPageErr = none ∧
    (fetch_status ⟨some "ws"⟩ ⟨none, none⟩
      ⟨some (.timeout "Timeout 45000ms exceeded."), none, [], [], [], none,
        .error (.timeout "t"), ⟨[], []⟩, [1]⟩ "123/2024" "secret").contextCreated = true ∧
    (fetch_status ⟨some "ws"⟩ ⟨none, none⟩
      ⟨some (.timeout "Timeout 45000ms exceeded."), none, [], [], [], none,
        .error (.timeout "t"), ⟨[], []⟩, [1]⟩ "123/2024" "secret").contextClosed = true :=
  ⟨rfl, rfl, c5_context_closed ⟨some "ws"⟩ ⟨none, none⟩
    ⟨some (.timeout "Timeout 45000ms exceeded."), none, [], [], [], none,
      .error (.timeout "t"), ⟨[], []⟩, [1]⟩ "123/2024" "secret" rfl rfl⟩

/-- C4: for every user id with a stored record (with the schema's
non-null ciphertext columns), if decrypting either ciphertext field fails
then `get_creds` returns `None` without raising — the only failure
`fernetDecrypt` can produce is `InvalidToken`, which `get_creds`
catches; and if both decryptions succeed it returns the decrypted case
number, password and alerts flag. -/
theorem c4_decrypt_failure_as_absent (key : Nat) (dbs : Nat → Option UserRow)
    (tid : Nat) (row : UserRow) (c1 c2 : Cipher)
    (hrow : dbs tid = some row) (h1 : row.case_enc = some c1)
    (h2 : row.pass_enc = some c2) :
    (((∃ e, fernetDecrypt key c1 = .error e) ∨ (∃ e, fernetDecrypt key c2 = .error e)) →
      get_creds key dbs tid = .ok none) ∧
    (∀ s1 s2, fernetDecrypt key c1 = .ok s1 → fernetDecrypt key c2 = .ok s2 →
      get_creds key dbs tid = .ok (some ⟨s1, s2, row.alerts⟩)) := by
  constructor
  · rintro (⟨e, he⟩ | ⟨e, he⟩)
    · rw [fernetDecrypt_error_invalidToken key c1 e he] at he
      simp [get_creds, hrow, h1, dec, he]
    · rw [fernetDecrypt_error_invalidToken key c2 e he] at he
      cases hd1 : fernetDecrypt key c1 with
      | error e1 =>
        rw [fernetDecrypt_error_invalidToken key c1 e1 hd1] at hd1
        simp [get_creds, hrow, h1, dec, hd1]
      | ok s1 => simp [get_creds, hrow, h1, h2, dec, hd1, he]
  · intro s1 s2 hs1 hs2
    simp [get_creds, hrow, h1, h2, dec, hs1, hs2]

/-- C4 witness: a record whose case-number ciphertext was produced under
a different key (key rotation) is treated as absent; the same record
decrypted under the right key yields the credentials. -/
theorem c4_decrypt_failure_as_absent_witness :
    (fun t => if t = 5 then
        some (⟨some (.token 1 "123/2024"), some (.token 1 "secret"), true, 0, 0⟩ : UserRow)
      else none) 5 =
      some (⟨some (.token 1 "123/2024"), some (.token 1 "secret"), true, 0, 0⟩ : UserRow) ∧
    (∃ e, fernetDecrypt 0 (.token 1 "123/2024") = .error e) ∧
    get_creds 0 (fun t => if t = 5 then
        some (⟨some (.token 1 "123/2024"), some (.token 1 "secret"), true, 0, 0⟩ : UserRow)
      else none) 5 = .ok none ∧
    get_creds 1 (fun t => if t = 5 then
        some (⟨some (.token 1 "123/2024"), some (.token 1 "secret"), true, 0, 0⟩ : UserRow)
      else none) 5 = .ok (some ⟨"123/2024", "secret", true⟩) := by
  refine ⟨rfl, ⟨.invalidToken, rfl⟩, ?_, ?_⟩
  · exact (c4_decrypt_failure_as_absent 0
      (fun t => if t = 5 then
        some (⟨some (.token 1 "123/2024"), some (.token 1 "secret"), true, 0, 0⟩ : UserRow)
      else none) 5
      ⟨some (.token 1 "123/2024"), some (.token 1 "secret"), true, 0, 0⟩
      (.token 1 "123/2024") (.token 1 "secret")
      rfl rfl rfl).1 (Or.inl ⟨.invalidToken, rfl⟩)
  · exact (c4_decrypt_failure_as_absent 1
      (fun t => if t = 5 then
        some (⟨some (.token 1 "123/2024"), some (.token 1 "secret"), true, 0, 0⟩ : UserRow)
      else none) 5
      ⟨some (.token 1 "123/2024"), some (.token 1 "secret"), true, 0, 0⟩
      (.token 1 "123/2024") (.token 1 "secret")
      rfl rfl rfl).2 "123/2024" "secret" rfl rfl

/-- C6: for every execution that reaches the extraction step on a page
whose DOM has no element matching any known status label — or, more
generally, on which no label match yields non-empty text (the in-page
script returns null) — `fetch_status` returns the full-page screenshot
tagged outcome, not an error. -/
theorem c6_screenshot_fallback (env : Env) (rem : Remote) (pg : Page) (cn pw : String)
    (hreach : ReachesExtraction env rem pg)
    (hno : NoLabelMatch pg.dom ∨ extractStatus pg.dom = none) :
    (fetch_status env rem pg cn pw).result = .ok (.screenshot pg.screenshotBytes) := by
  have hnone : extractStatus pg.dom = none := by
    rcases hno with hN | hE
    · exact extractStatus_none_of_noLabel pg.dom hN
    · exact hE
  have h := (fetch_status_auth env rem pg cn pw hreach).1
  rw [hnone] at h
  exact h

/-- C6 witness: a DOM whose only texts are unrelated to the status
labels, at which the theorem yields the screenshot outcome. -/
theorem c6_screenshot_fallback_witness :
    ReachesExtraction ⟨some "ws"⟩ ⟨none, none⟩
      ⟨none, none, [.ok ()], [.ok ()], [.ok ()], none, .error (.timeout "t"),
        ⟨[["Numer sprawy", "123/2024"]], [⟨"Witamy", ["w systemie"]⟩]⟩, [4, 2]⟩ ∧
    NoLabelMatch ⟨[["Numer sprawy", "123/2024"]], [⟨"Witamy", ["w systemie"]⟩]⟩ ∧
    (fetch_status ⟨some "ws"⟩ ⟨none, none⟩
      ⟨none, none, [.ok ()], [.ok ()], [.ok ()], none, .error (.timeout "t"),
        ⟨[["Numer sprawy", "123/2024"]], [⟨"Witamy", ["w systemie"]⟩]⟩, [4, 2]⟩
      "123/2024" "secret").result = .ok (.screenshot [4, 2]) := by
  refine ⟨⟨by decide, rfl, rfl, rfl, rfl, rfl, rfl, rfl⟩, ⟨by decide, by decide⟩, ?_⟩
  exact c6_screenshot_fallback ⟨some "ws"⟩ ⟨none, none⟩
    ⟨none, none, [.ok ()], [.ok ()], [.ok ()], none, .error (.timeout "t"),
      ⟨[["Numer sprawy", "123/2024"]], [⟨"Witamy", ["w systemie"]⟩]⟩, [4, 2]⟩
    "123/2024" "secret" ⟨by decide, rfl, rfl, rfl, rfl, rfl, rfl, rfl⟩
    (Or.inl ⟨by decide, by decide⟩)

/-- C7: for every execution reaching extraction on a DOM in which some
table row has a cell matching a known label variant (after
normalisation) followed in the same row by a cell with non-empty
trimmed text, `fetch_status` returns the status text of such a
label-following cell, whitespace-collapsed and trimmed. -/
theorem c7_table_extraction (env : Env) (rem : Remote) (pg : Page) (cn pw : String)
    (hreach : ReachesExtraction env rem pg)
    (hhit : ∃ row ∈ pg.dom.rows, RowHasHit row) :
    ∃ v row i j, row ∈ pg.dom.rows ∧ i < j ∧ j < row.length ∧
      isLabelText (row.getD i "") = true ∧ v = trimWs (row.getD j "") ∧ v ≠ "" ∧
      (fetch_status env rem pg cn pw).result =
        .ok (.statusText (trimWs (collapseWs v))) := by
  obtain ⟨v, row, hmem, hS, hp1⟩ := pass1_some_of_hit pg.dom.rows hhit
  obtain ⟨i, j, hij, hjlen, hlab, hv, hne⟩ := scanRow_some_idx row v hS
  have hext : extractStatus pg.dom = some v := by simp [extractStatus, hp1]
  have h := (fetch_status_auth env rem pg cn pw hreach).1
  simp only [hext] at h
  rw [if_neg hne] at h
  exact ⟨v, row, i, j, hmem, hij, hjlen, hlab, hv, hne, h⟩

/-- C7 witness: a table row `["Etap postępowania", "", "  W   toku "]`
(label cell, empty cell, then the value with ragged whitespace), at which
the theorem yields the collapsed, trimmed status text "W toku". -/
theorem c7_table_extraction_witness :
    ReachesExtraction ⟨some "ws"⟩ ⟨none, none⟩
      ⟨none, none, [.ok ()], [.ok ()], [.ok ()], none, .error (.timeout "t"),
        ⟨[["Etap postępowania", "", "  W   toku "]], []⟩, [1]⟩ ∧
    RowHasHit ["Etap postępowania", "", "  W   toku "] ∧
    (∃ v row i j,
      row ∈ ([["Etap postępowania", "", "  W   toku "]] : List (List String)) ∧
      i < j ∧ j < row.length ∧ isLabelText (row.getD i "") = true ∧
      v = trimWs (row.getD j "") ∧ v ≠ "" ∧
      (fetch_status ⟨some "ws"⟩ ⟨none, none⟩
        ⟨none, none, [.ok ()], [.ok ()], [.ok ()], none, .error (.timeout "t"),
          ⟨[["Etap postępowania", "", "  W   toku "]], []⟩, [1]⟩
        "123/2024" "secret").result = .ok (.statusText (trimWs (collapseWs v)))) := by
  refine ⟨⟨by decide, rfl, rfl, rfl, rfl, rfl, rfl, rfl⟩, ?_, ?_⟩
  · exact ⟨0, 2, by omega, by decide, by decide, by decide⟩
  · exact c7_table_extraction ⟨some "ws"⟩ ⟨none, none⟩
      ⟨none, none, [.ok ()], [.ok ()], [.ok ()], none, .error (.timeout "t"),
        ⟨[["Etap postępowania", "", "  W   toku "]], []⟩, [1]⟩
      "123/2024" "secret" ⟨by decide, rfl, rfl, rfl, rfl, rfl, rfl, rfl⟩
      ⟨["Etap postępowania", "", "  W   toku "], by simp,
        ⟨0, 2, by omega, by decide, by decide, by decide⟩⟩

/-- C8: for every scheduled tick whose stored rows satisfy the schema's
non-null ciphertext invariant, the tick never raises: if the record is
absent or undecryptable (`get_creds` yields `None`) or alerts are
disabled, nothing is fetched and nothing is sent; and when credentials
are live, any error raised by the extraction pipeline is caught inside
the tick and delivered to the user as an error message — so a tick's
failure can never unwind the scheduler or cancel future ticks. -/
theorem c8_tick_isolation (key : Nat) (dbs : Nat → Option UserRow) (env : Env)
    (rem : Remote) (pg : Page) (uid : Nat)
    (hdb : ∀ row, dbs uid = some row → row.case_enc.isSome ∧ row.pass_enc.isSome) :
    (∃ tr, check_job key dbs env rem pg uid = .ok tr) ∧
    (get_creds key dbs uid = .ok none →
      check_job key dbs env rem pg uid = .ok ⟨[], false⟩) ∧
    (∀ c, get_creds key dbs uid = .ok (some c) → c.alerts = false →
      check_job key dbs env rem pg uid = .ok ⟨[], false⟩) ∧
    (∀ c e, get_creds key dbs uid = .ok (some c) → c.alerts = true →
      (fetch_status env rem pg c.case_no c.password).result = .error e →
      check_job key dbs env rem pg uid =
        .ok ⟨[.message uid ("⚠️ Не удалось проверить статус: " ++ exnText e)], true⟩) := by
  refine ⟨?_, ?_, ?_, ?_⟩
  · obtain ⟨r, hr⟩ := get_creds_total key dbs uid hdb
    cases r with
    | none => exact ⟨⟨[], false⟩, by simp [check_job, hr]⟩
    | some c =>
      by_cases ha : c.alerts = true
      · cases hf : (fetch_status env rem pg c.case_no c.password).result with
        | error e =>
          exact ⟨⟨[.message uid ("⚠️ Не удалось проверить статус: " ++ exnText e)], true⟩,
            by simp [check_job, hr, ha, hf]⟩
        | ok o =>
          cases o with
          | statusText s =>
            exact ⟨⟨[.message uid ("🔔 Обновление статуса:\n📌 *" ++ safe_markdown s ++ "*")],
              true⟩, by simp [check_job, hr, ha, hf]⟩
          | screenshot img =>
            exact ⟨⟨[.message uid "🔔 Не нашёл текст статуса — отправляю скриншот.",
              .photo uid img], true⟩, by simp [check_job, hr, ha, hf]⟩
      · exact ⟨⟨[], false⟩, by simp [check_job, hr, ha]⟩
  · intro h
    simp [check_job, h]
  · intro c h ha
    simp [check_job, h, ha]
  · intro c e h ha hf
    simp [check_job, h, ha, hf]

/-- C8 witness: a live record with alerts on, and a portal that times out
on navigation; the tick completes with a delivered error message. -/
theorem c8_tick_isolation_witness :
    (∀ row, (fun t => if t = 5 then
        some (⟨some (.token 0 "123/2024"), some (.token 0 "secret"), true, 0, 0⟩ : UserRow)
      else none) 5 = some row → row.case_enc.isSome ∧ row.pass_enc.isSome) ∧
    check_job 0 (fun t => if t = 5 then
        some (⟨some (.token 0 "123/2024"), some (.token 0 "secret"), true, 0, 0⟩ : UserRow)
      else none) ⟨some "ws"⟩ ⟨none, none⟩
      ⟨some (.timeout "Timeout 45000ms exceeded."), none, [], [], [], none,
        .error (.timeout "t"), ⟨[], []⟩, [1]⟩ 5 =
      .ok ⟨[.message 5 ("⚠️ Не удалось проверить статус: " ++
        exnText (.runtime "Портал не отвечает или работает медленно. Попробуйте позже."))],
        true⟩ := by
  have hdb : ∀ row, (fun t => if t = 5 then
      some (⟨some (.token 0 "123/2024"), some (.token 0 "secret"), true, 0, 0⟩ : UserRow)
    else none) 5 = some row → row.case_enc.isSome ∧ row.pass_enc.isSome := by
    intro row h
    simp at h
    rw [← h]
    exact ⟨rfl, rfl⟩
  refine ⟨hdb, ?_⟩
  exact (c8_tick_isolation 0 _ ⟨some "ws"⟩ ⟨none, none⟩
    ⟨some (.timeout "Timeout 45000ms exceeded."), none, [], [], [], none,
      .error (.timeout "t"), ⟨[], []⟩, [1]⟩ 5 hdb).2.2.2
    ⟨"123/2024", "secret", true⟩
    (.runtime "Портал не отвечает или работает медленно. Попробуйте позже.") rfl rfl rfl

/-- C9: disabling alerts removes every job named `alert_<uid>` from the
registry, and performing the disable operation twice in a row likewise
leaves zero jobs with that user's name (idempotence of disable). -/
theorem c9_disable_idempotent (uid : Nat) (jobs : List Job) :
    countJobsNamed uid (disableAlerts uid jobs) = 0 ∧
    countJobsNamed uid (disableAlerts uid (disableAlerts uid jobs)) = 0 := by
  constructor
  · simp [countJobsNamed, disableAlerts, filter_named_of_removed]
  · simp [countJobsNamed, disableAlerts, filter_named_of_removed]

/-- C10: for every user id that already has a stored record,
`upsert_creds` replaces both ciphertext fields with fresh encryptions of
the new case number and password and sets `updated_at` to the current
time, while leaving the record's alerts flag and `created_at`
unchanged. -/
theorem c10_upsert_fresh_preserves_alerts (key now : Nat) (dbs : Nat → Option UserRow)
    (tid : Nat) (case_no password : String) (row : UserRow)
    (hrow : dbs tid = some row) :
    ∃ row2, upsert_creds key now dbs tid case_no password tid = some row2 ∧
      row2.case_enc = some (fernetEncrypt key case_no) ∧
      row2.pass_enc = some (fernetEncrypt key password) ∧
      row2.updated_at = now ∧
      row2.alerts = row.alerts ∧
      row2.created_at = row.created_at := by
  refine ⟨{ row with
    case_enc := some (enc key case_no),
    pass_enc := some (enc key password),
    updated_at := now }, ?_, rfl, rfl, rfl, rfl, rfl⟩
  simp [upsert_creds, hrow]

/-- C10 witness: re-submitting credentials for a user whose record has
alerts enabled keeps the flag and the creation time. -/
theorem c10_upsert_fresh_preserves_alerts_witness :
    (fun t => if t = 5 then
        some (⟨some (.token 0 "old-case"), some (.token 0 "old-pass"), true, 3, 4⟩ : UserRow)
      else none) 5 =
      some (⟨some (.token 0 "old-case"), some (.token 0 "old-pass"), true, 3, 4⟩ : UserRow) ∧
    (∃ row2, upsert_creds 0 9 (fun t => if t = 5 then
        some (⟨some (.token 0 "old-case"), some (.token 0 "old-pass"), true, 3, 4⟩ : UserRow)
      else none) 5 "123/2024" "secret" 5 = some row2 ∧
      row2.case_enc = some (fernetEncrypt 0 "123/2024") ∧
      row2.pass_enc = some (fernetEncrypt 0 "secret") ∧
      row2.updated_at = 9 ∧ row2.alerts = true ∧ row2.created_at = 3) :=
  ⟨rfl, c10_upsert_fresh_preserves_alerts 0 9 _ 5 "123/2024" "secret"
    ⟨some (.token 0 "old-case"), some (.token 0 "old-pass"), true, 3, 4⟩ rfl⟩

end UwBot
